import Mathlib

/-!
Verification of the Confidential Storage Core of the coldProxy repository.

The definitions below are a shallow embedding of the TypeScript sources:

* `packages/core/src/security/crypto.service.ts`  (CryptoService, SetupService)
* `packages/core/src/security/unlock.service.ts`  (UnlockService)
* `packages/http-api/src/middleware/rate-limiter.ts`
* `packages/http-api/src/middleware/kill-switch.ts`
* the `requireFreshWebAuthn` session-gate middleware
* the `AsyncDbWriter` bounded write queue
* the unlock-route registration of `APIRouter.registerHandlers`

Cryptographic primitives are modelled symbolically: random bytes are
numbered draws from an explicit counter, Argon2id is an injective
constructor on (pin, salt), and AEAD sealing is an injective constructor
on (plaintext, key, nonce), so that decryption succeeds exactly when the
key and nonce match the ones used to seal.

The sources are asynchronous TypeScript.  Where the code awaits a
promise, the model uses the settled value; where the code fails to await
a promise (which happens in `unlockWithPin` and `getDecryptedDek`), the
model keeps the promise explicit as an `Except` value, because the
runtime behaviour of those code paths depends on it.
-/

/-- Errors produced by the crypto layer at runtime: an AEAD tag mismatch
(`decryptFailed`, libsodium's failed decryption), or a type error from
handing a non-byte value (such as an un-awaited Promise) to libsodium. -/
inductive CErr : Type
  | decryptFailed : CErr
  | typeError : CErr
  deriving DecidableEq, Repr

/-- Symbolic byte strings.  `rand n` is the n-th draw of
`CryptoService.generateKey`; `derivedPin pin salt` is
`crypto_pwhash` (Argon2id) of the pin and salt; `sealedBy p k n` is the
XChaCha20-Poly1305 ciphertext of plaintext `p` under key `k` and
nonce `n` (`CryptoService.aeadEncrypt`). -/
inductive SymBytes : Type
  | rand : Nat → SymBytes
  | derivedPin : String → SymBytes → SymBytes
  | sealedBy : SymBytes → SymBytes → SymBytes → SymBytes
  deriving DecidableEq, Repr

/-- Model of `CryptoService.aeadDecrypt`: decryption returns the sealed
plaintext when ciphertext, nonce and key line up, and fails with
`decryptFailed` (a thrown error in libsodium, a rejected promise through
the async facade) otherwise. -/
def aeadDecrypt (ciphertext nonce key : SymBytes) : Except CErr SymBytes :=
  match ciphertext with
  | .sealedBy p k n => if k = key ∧ n = nonce then .ok p else .error .decryptFailed
  | _ => .error .decryptFailed

/-- Model of `CryptoService.generateKey`: a fresh random draw, threading
the draw counter.  The byte length requested by the caller does not
matter to any claim and is dropped. -/
def generateKey (rng : Nat) : SymBytes × Nat :=
  (SymBytes.rand rng, rng + 1)

/-- Model of `CryptoService.deriveKeyFromPin` (Argon2id) applied to an
actual byte-string salt. -/
def deriveKeyFromPin (pin : String) (salt : SymBytes) : SymBytes :=
  SymBytes.derivedPin pin salt

/-- Model of `CryptoService.wrapKey`: generate a fresh nonce, seal the
key, return (ciphertext, nonce) and the advanced draw counter. -/
def wrapKey (rng : Nat) (keyToWrap wrappingKey : SymBytes) :
    (SymBytes × SymBytes) × Nat :=
  let nonce := SymBytes.rand rng
  ((SymBytes.sealedBy keyToWrap wrappingKey nonce, nonce), rng + 1)

deriving instance DecidableEq for Except

/-- A JavaScript value flowing through the unlock code: either actual
bytes (an awaited `Uint8Array`), or a promise carrying its settled
state.  A promise is what an `async` method returns when the caller
omits `await`. -/
inductive JsVal : Type
  | bytes : SymBytes → JsVal
  | promise : Except CErr SymBytes → JsVal
  deriving DecidableEq, Repr

/-- Settled state of the promise returned by the async
`CryptoService.unwrapKey` when called with an arbitrary JS value as the
wrapping key.  With real bytes it is `aeadDecrypt`; with a promise as
the key, libsodium rejects the input type inside the async function, so
the returned promise is rejected. -/
def unwrapKeyJs (ciphertext nonce : SymBytes) (wrappingKey : JsVal) :
    Except CErr SymBytes :=
  match wrappingKey with
  | .bytes k => aeadDecrypt ciphertext nonce k
  | .promise _ => .error .typeError

/-- Metadata JSON stored on a key-store record: `{salt: hex}` for
`master_key_pin` records, `{version: n}` for `data_encryption_key`
records. -/
inductive RecordMeta : Type
  | pinMeta : SymBytes → RecordMeta
  | dekMeta : Nat → RecordMeta
  deriving DecidableEq, Repr

/-- A key-store row: `(id, type, blob, nonce, meta)`.  The nonce is
persisted hex-encoded and decoded with `Buffer.from(nonce, "hex")` on
read; the model stores the decoded bytes, as the round trip is the
identity. -/
structure KeyRecord : Type where
  id : String
  rtype : String
  blob : SymBytes
  nonce : SymBytes
  meta : Option RecordMeta
  deriving DecidableEq, Repr

/-- Model of `KeyStoreRepository.findById`. -/
def findById (store : List KeyRecord) (i : String) : Option KeyRecord :=
  store.find? (fun r => r.id == i)

/-- Model of `KeyStoreRepository.create`: fails (Conflict) when the id
already exists, otherwise appends the row. -/
def createRecord (store : List KeyRecord) (r : KeyRecord) :
    Option (List KeyRecord) :=
  match findById store r.id with
  | some _ => none
  | none => some (store ++ [r])

/-- Lookup in an insertion-ordered association list, the model of a
JavaScript `Map` (`Map.prototype.get`). -/
def mapLookup {β : Type} (m : List (String × β)) (k : String) : Option β :=
  match m.find? (fun e => e.1 == k) with
  | some e => some e.2
  | none => none

/-- JavaScript `Map.prototype.set`: replace in place when the key is
present (insertion order is preserved), append otherwise. -/
def mapSet {β : Type} : List (String × β) → String → β → List (String × β)
  | [], k, v => [(k, v)]
  | e :: rest, k, v =>
      if e.1 = k then (k, v) :: rest else e :: mapSet rest k v

/-- JavaScript `Map.prototype.delete`: remove the entry for the key (at
most one exists in a `Map`). -/
def mapDelete {β : Type} : List (String × β) → String → List (String × β)
  | [], _ => []
  | e :: rest, k => if e.1 = k then rest else e :: mapDelete rest k

/-- An MK-cache slot as the code actually stores it: the value assigned
to `key` in `unlockWithPin` is the promise returned by the un-awaited
`unwrapKey` call, so the slot holds a promise, not bytes. -/
structure CacheEntry : Type where
  key : Except CErr SymBytes
  expires : Int
  deriving DecidableEq, Repr

/-- Per-user PIN-failure record (`pinFailures` map of `UnlockService`). -/
structure FailureInfo : Type where
  count : Nat
  lastAttempt : Int
  deriving DecidableEq, Repr

/-- The mutable state of one `UnlockService` (plus the key store it
reads through `dbOps`, and the random-draw counter of the crypto
facade). -/
structure UnlockState : Type where
  keyStore : List KeyRecord
  mkCache : List (String × CacheEntry)
  pinFailures : List (String × FailureInfo)
  rng : Nat
  deriving DecidableEq, Repr

/-- `mkCacheTTL` of `UnlockService`: 30 minutes in milliseconds. -/
def mkCacheTTL : Int := 30 * 60 * 1000

/-- `pinLockoutDuration` of `UnlockService`: 15 minutes in milliseconds. -/
def pinLockoutDuration : Int := 15 * 60 * 1000

/-- `maxPinAttempts` of `UnlockService`. -/
def maxPinAttempts : Nat := 5

/-- Model of the private `UnlockService.getMasterKeyFromCache`: on a hit
with an unexpired entry, refresh `expires` in place and return the
stored value; otherwise delete the slot and return `null`. -/
def getMasterKeyFromCache (s : UnlockState) (now : Int) (userId : String) :
    Option (Except CErr SymBytes) × UnlockState :=
  match mapLookup s.mkCache userId with
  | some entry =>
      if now < entry.expires then
        (some entry.key,
          { s with mkCache := mapSet s.mkCache userId ⟨entry.key, now + mkCacheTTL⟩ })
      else
        (none, { s with mkCache := mapDelete s.mkCache userId })
  | none => (none, { s with mkCache := mapDelete s.mkCache userId })

/-- Model of the private `UnlockService.setMasterKeyInCache`: when the
cache has reached 100 entries, evict the entry whose key is first in the
Map's insertion order (`keys().next().value`), then set the new slot. -/
def setMasterKeyInCache (s : UnlockState) (now : Int) (userId : String)
    (key : Except CErr SymBytes) : UnlockState :=
  let cache :=
    if 100 ≤ s.mkCache.length then
      match s.mkCache with
      | [] => s.mkCache
      | e :: rest => mapDelete (e :: rest) e.1
    else s.mkCache
  { s with mkCache := mapSet cache userId ⟨key, now + mkCacheTTL⟩ }

/-- Observable outcome of one `unlockWithPin` call: a returned boolean,
the thrown `AccountLocked` error, or an uncaught runtime error
propagating out of an awaited rejected promise. -/
inductive UnlockResult : Type
  | ok : Bool → UnlockResult
  | accountLocked : UnlockResult
  | jsError : CErr → UnlockResult
  deriving DecidableEq, Repr

/-- Model of `UnlockService.unlockWithPin`, faithful to the source's
promise handling:

* the lockout check reads `pinFailures` and throws `AccountLocked`;
* a missing `mk_pin_<userId>` record triggers the dummy derivation
  `deriveKeyFromPin(pin, this.crypto.generateKey(16))` — `generateKey`
  is **not** awaited, so the Promise itself is passed to Argon2id as the
  salt, libsodium rejects the input type, and the awaited rejection
  propagates out of `unlockWithPin` as an uncaught error instead of the
  intended `return false`;
* on a present record the KEK is derived (awaited), but
  `this.crypto.unwrapKey(...)` is **not** awaited: it is an async method
  and never throws synchronously, so the `catch` branch is dead code,
  the success branch always runs, the promise object itself is cached
  as the master key, the failure record is deleted, and the call
  returns `true` for any pin. -/
def unlockWithPin (s : UnlockState) (now : Int) (userId pin : String) :
    UnlockResult × UnlockState :=
  let failureInfo := mapLookup s.pinFailures userId
  if (match failureInfo with
      | some fi =>
          decide (maxPinAttempts ≤ fi.count) &&
            decide (now - fi.lastAttempt < pinLockoutDuration)
      | none => false) then
    (.accountLocked, s)
  else
    match findById s.keyStore ("mk_pin_" ++ userId) with
    | none =>
        -- dummy derivation path: generateKey is called (advancing the
        -- draw counter) but not awaited; the await on deriveKeyFromPin
        -- then surfaces the rejection
        (.jsError .typeError, { s with rng := s.rng + 1 })
    | some record =>
        match record.meta with
        | none => (.jsError .typeError, { s with rng := s.rng + 1 })
        | some (.dekMeta _) =>
            -- JSON.parse(meta).salt is undefined; Buffer.from(undefined, "hex") throws
            (.jsError .typeError, s)
        | some (.pinMeta salt) =>
            let kek := deriveKeyFromPin pin salt
            let mkPromise := aeadDecrypt record.blob record.nonce kek
            let s1 := setMasterKeyInCache s now userId mkPromise
            (.ok true, { s1 with pinFailures := mapDelete s1.pinFailures userId })

/-- Runtime value returned by `UnlockService.getDecryptedDek`: `null`,
or the promise returned by the un-awaited `unwrapKey` call (the declared
`Uint8Array | null` type notwithstanding). -/
inductive DekResult : Type
  | nullRes : DekResult
  | promiseRes : Except CErr SymBytes → DekResult
  deriving DecidableEq, Repr

/-- Model of `UnlockService.getDecryptedDek`.  The cached master key is
itself a promise; passing it to `unwrapKey` as the wrapping key makes
libsodium reject, and since `unwrapKey` is not awaited the `catch` is
dead and the rejected promise is returned as the "DEK". -/
def getDecryptedDek (s : UnlockState) (now : Int) (userId : String) :
    DekResult × UnlockState :=
  let hit := getMasterKeyFromCache s now userId
  match hit.1 with
  | none => (.nullRes, hit.2)
  | some mkPromise =>
      match findById hit.2.keyStore ("dek_" ++ userId) with
      | none => (.nullRes, hit.2)
      | some record =>
          (.promiseRes (unwrapKeyJs record.blob record.nonce (.promise mkPromise)),
            hit.2)

/-- Model of `SetupService.setPin`, which awaits all its crypto calls:
generate MK and DEK, wrap the DEK with the MK and store `dek_<userId>`,
generate a salt, derive the KEK from the pin, wrap the MK with the KEK
and store `mk_pin_<userId>`.  Fails (`none`) on a key-store id
conflict. -/
def setPin (s : UnlockState) (userId pin : String) : Option UnlockState :=
  let mkDraw := generateKey s.rng
  let dekDraw := generateKey mkDraw.2
  let wrappedDek := wrapKey dekDraw.2 dekDraw.1 mkDraw.1
  match createRecord s.keyStore
      { id := "dek_" ++ userId, rtype := "data_encryption_key",
        blob := wrappedDek.1.1, nonce := wrappedDek.1.2,
        meta := some (.dekMeta 1) } with
  | none => none
  | some ks1 =>
      let saltDraw := generateKey wrappedDek.2
      let kek := deriveKeyFromPin pin saltDraw.1
      let wrappedMk := wrapKey saltDraw.2 mkDraw.1 kek
      match createRecord ks1
          { id := "mk_pin_" ++ userId, rtype := "master_key_pin",
            blob := wrappedMk.1.1, nonce := wrappedMk.1.2,
            meta := some (.pinMeta saltDraw.1) } with
      | none => none
      | some ks2 => some { s with keyStore := ks2, rng := wrappedMk.2 }

/-- Per-key window record of `RateLimiter` (`rate-limiter.ts`). -/
structure RateLimitInfo : Type where
  count : Nat
  startTime : Int
  deriving DecidableEq, Repr

/-- The `RateLimiter` object: its store and constructor options. -/
structure RateLimiter : Type where
  store : List (String × RateLimitInfo)
  maxRequests : Nat
  windowMs : Int
  deriving DecidableEq, Repr

/-- Model of `RateLimiter.limit`: fetch (or default) the record for the
key, reset it when its window start lies before `now - windowMs`,
increment the count, store it back, and report whether the count now
exceeds `maxRequests` (true = over the limit). -/
def RateLimiter.limit (rl : RateLimiter) (now : Int) (key : String) :
    Bool × RateLimiter :=
  let windowStart := now - rl.windowMs
  let info := (mapLookup rl.store key).getD ⟨0, now⟩
  let info := if info.startTime < windowStart then ⟨0, now⟩ else info
  let info : RateLimitInfo := ⟨info.count + 1, info.startTime⟩
  (decide (rl.maxRequests < info.count),
    { rl with store := mapSet rl.store key info })

/-- The unlock rate limiter exactly as `APIRouter` constructs it:
`new RateLimiter({ maxRequests: 5, windowMs: 60000 })` with an empty
store. -/
def unlockRateLimiter0 : RateLimiter := ⟨[], 5, 60000⟩

/-- The slice of an HTTP request the unlock middleware reads: the two
client-address headers (`none` when the header is absent). -/
structure HttpRequest : Type where
  xForwardedFor : Option String
  xRealIp : Option String
  deriving DecidableEq, Repr

/-- JavaScript truthiness filter for a header value: `null` and the
empty string are falsy and fall through the `||` chain. -/
def truthyHeader (v : Option String) : Option String :=
  match v with
  | some s => if s = "" then none else some s
  | none => none

/-- Key selection of `createRateLimitMiddleware`:
`req.headers.get("x-forwarded-for") || req.headers.get("x-real-ip") || "unknown"`. -/
def rateLimitKey (req : HttpRequest) : String :=
  match truthyHeader req.xForwardedFor with
  | some s => s
  | none =>
      match truthyHeader req.xRealIp with
      | some s => s
      | none => "unknown"

/-- HTTP-level errors thrown by the middleware under study. -/
inductive HttpErr : Type
  | tooManyRequests : HttpErr
  | forbidden : HttpErr
  | serviceUnavailable : HttpErr
  deriving DecidableEq, Repr

/-- State threaded through the routed unlock handlers: the kill-switch
configuration flag and the router's `unlockRateLimiter`. -/
structure GateState : Type where
  killSwitch : Bool
  unlockLimiter : RateLimiter
  deriving DecidableEq, Repr

/-- A routed handler: given the request, the current time and the gate
state, either throw an `HttpErr` or produce a response (the response
body is irrelevant to every claim and elided to `Unit`). -/
def RouteHandler : Type := HttpRequest → Int → GateState → Except HttpErr Unit × GateState

/-- Model of `createKillSwitchMiddleware`: throw `ServiceUnavailable`
when `config.getKillSwitch()` is set, otherwise call the wrapped
handler. -/
def withKillSwitch (handler : RouteHandler) : RouteHandler :=
  fun req now s =>
    if s.killSwitch then (.error .serviceUnavailable, s) else handler req now s

/-- Model of `createRateLimitMiddleware(unlockRateLimiter)`: compute the
per-IP key, run `limit` (which always mutates the store), throw
`TooManyRequests` when over the limit, otherwise call the wrapped
handler. -/
def withUnlockRateLimit (handler : RouteHandler) : RouteHandler :=
  fun req now s =>
    let hit := s.unlockLimiter.limit now (rateLimitKey req)
    let s1 : GateState := { s with unlockLimiter := hit.2 }
    if hit.1 then (.error .tooManyRequests, s1) else handler req now s1

/-- The three unlock routes registered by `APIRouter.registerHandlers`. -/
inductive UnlockRoute : Type
  | pin : UnlockRoute
  | webauthnChallenge : UnlockRoute
  | webauthnFinish : UnlockRoute
  deriving DecidableEq, Repr

/-- Route table for the unlock endpoints as registered in
`registerHandlers`: each of `POST:/unlock/pin`,
`POST:/unlock/webauthn/challenge` and `POST:/unlock/webauthn/finish` is
wired as `withKillSwitch(withUnlockRateLimit(innerHandler))`, the kill
switch outermost.  The inner handlers (which call the Unlock Service)
are abstract parameters. -/
def unlockRouteTable (inner : UnlockRoute → RouteHandler) :
    UnlockRoute → RouteHandler :=
  fun r => withKillSwitch (withUnlockRateLimit (inner r))

/-- The per-request session object, restricted to the field
`requireFreshWebAuthn` reads. -/
structure Session : Type where
  lastUVAt : Option Int
  deriving DecidableEq, Repr

/-- `FRESH_WEBAUTHN_TTL`: 5 minutes in milliseconds. -/
def freshWebAuthnTTL : Int := 5 * 60 * 1000

/-- Model of `requireFreshWebAuthn`: throw `Forbidden` when
`!session.lastUVAt || Date.now() - session.lastUVAt > FRESH_WEBAUTHN_TTL`,
otherwise invoke the wrapped handler.  Note that `!session.lastUVAt` is
a JavaScript truthiness test: it is true both when the field is absent
and when it holds the (falsy) number 0. -/
def requireFreshWebAuthn (handler : Int → Session → Except HttpErr Unit)
    (now : Int) (session : Session) : Except HttpErr Unit :=
  if (match session.lastUVAt with
      | none => true
      | some t => decide (t = 0) || decide (freshWebAuthnTTL < now - t)) then
    .error .forbidden
  else
    handler now session

/-- State of one `AsyncDbWriter` over an abstract job type.  `intervalId`
is modelled by whether the 100 ms interval timer is installed; jobs are
opaque. -/
structure WriterState (J : Type) : Type where
  queue : List J
  running : Bool
  intervalId : Bool
  maxQueueSize : Nat
  queueDepth : Nat
  droppedJobs : Nat
  totalJobs : Nat
  deriving DecidableEq, Repr

/-- Model of `AsyncDbWriter.enqueue`: bump `totalJobs`, publish the
current depth, drop the job (bumping `droppedJobs`) when the queue
already holds `maxQueueSize` jobs, otherwise append it.  The 80%
`warnThreshold` branch only logs and has no modelled effect.  The
trailing `void this.processQueue()` starts the asynchronous drain
without awaiting it; the drain is the separate `processQueue` step
below. -/
def enqueue {J : Type} (s : WriterState J) (job : J) : Bool × WriterState J :=
  let s := { s with totalJobs := s.totalJobs + 1 }
  let s := { s with queueDepth := s.queue.length }
  if s.maxQueueSize ≤ s.queueDepth then
    (false, { s with droppedJobs := s.droppedJobs + 1 })
  else
    (true, { s with queue := s.queue ++ [job] })

/-- Model of one completed run of `AsyncDbWriter.processQueue`: a no-op
when a drain is already running or the queue is empty; otherwise the
while loop shifts and executes every queued job in FIFO order (failures
are caught and logged per job) and resets `running`.  Returns the new
state and the list of jobs executed, in execution order. -/
def processQueue {J : Type} (s : WriterState J) : WriterState J × List J :=
  if s.running then (s, [])
  else ({ s with queue := [] }, s.queue)

/-- Model of `AsyncDbWriter.dispose`: clear the interval timer, then
run `processQueue` to flush the remaining jobs. -/
def dispose {J : Type} (s : WriterState J) : WriterState J × List J :=
  processQueue { s with intervalId := false }

/-- The state of a freshly constructed `UnlockService`/`SetupService`
pair over an empty key store: empty MK cache, empty PIN-failure map. -/
def pinScenarioBase : UnlockState :=
  { keyStore := [], mkCache := [], pinFailures := [], rng := 0 }

/-- Scenario S1 of the specification, step 1: `set_pin("u1","1234")`
run against the fresh state. -/
def pinScenarioS1 : UnlockState :=
  (setPin pinScenarioBase ("u1") ("1234")).getD pinScenarioBase

/-- Scenario S1, after the subsequent `unlock_with_pin("u1","1234")`
call (made at time 1000). -/
def pinScenarioS2 : UnlockState :=
  (unlockWithPin pinScenarioS1 1000 ("u1") ("1234")).2

/-- A sequence of `unlockWithPin` calls by one user: returns the final
state and the list of per-call outcomes in call order. -/
def runUnlockSequence (s : UnlockState) (u : String) :
    List (Int × String) → UnlockState × List UnlockResult
  | [] => (s, [])
  | c :: rest =>
      let r := unlockWithPin s c.1 u c.2
      let t := runUnlockSequence r.2 u rest
      (t.1, r.1 :: t.2)

/-- A sequence of `RateLimiter.limit` calls for one key at the given
times: the list of over-limit flags in call order (`true` = rejected). -/
def runLimiter (rl : RateLimiter) (key : String) : List Int → List Bool
  | [] => []
  | t :: ts =>
      let hit := rl.limit t key
      hit.1 :: runLimiter hit.2 key ts

/-- The times of the admitted (not rejected) requests in a sequence of
`RateLimiter.limit` calls for one key. -/
def admittedTimes (rl : RateLimiter) (key : String) : List Int → List Int
  | [] => []
  | t :: ts =>
      let hit := rl.limit t key
      (if hit.1 then [] else [t]) ++ admittedTimes hit.2 key ts

/-- A request schedule (milliseconds) for one client IP: one request at
time 0, then bursts at 50–53 s and 61–65 s. -/
def slidingSchedule : List Int :=
  [0, 50000, 51000, 52000, 53000, 61000, 62000, 63000, 64000, 65000]

/-- A wrapped session handler that always succeeds, used to observe
whether the session gate admits a request. -/
def okSessionHandler : Int → Session → Except HttpErr Unit :=
  fun _ _ => Except.ok ()

/-- An inner route handler that always succeeds and leaves the gate
state unchanged, standing in for the unlock handlers. -/
def okRouteHandler : RouteHandler :=
  fun _ _ s => (Except.ok (), s)

/-- A concrete state for the lockout scenario: user u1 is provisioned
with PIN 1234 (salt draw 11, MK draw 10, wrap nonce draw 12) and has a
PIN-failure record of 5 failures, the last at time 0. -/
def lockoutWitnessState : UnlockState :=
  { keyStore :=
      [⟨"mk_pin_u1", "master_key_pin",
        SymBytes.sealedBy (.rand 10) (.derivedPin ("1234") (.rand 11)) (.rand 12),
        SymBytes.rand 12, some (.pinMeta (.rand 11))⟩],
    mkCache := [],
    pinFailures := [("u1", ⟨5, 0⟩)],
    rng := 13 }

/-- A cache slot used to populate concrete MK caches in examples. -/
def witnessEntry : CacheEntry := ⟨Except.ok (SymBytes.rand 0), 10000⟩

/-- A full (100-entry) MK cache with keys k0 … k99. -/
def witnessCache : List (String × CacheEntry) :=
  (List.range 100).map (fun i => ("k" ++ toString i, witnessEntry))

/-- The tail of `witnessCache`: the 99 entries after the
oldest-inserted one. -/
def witnessCacheTail : List (String × CacheEntry) :=
  (List.range 99).map (fun i => ("k" ++ toString (i + 1), witnessEntry))

/-- An `AsyncDbWriter` whose queue already holds 1000 jobs. -/
def fullWriter : WriterState Nat :=
  { queue := List.replicate 1000 0, running := false, intervalId := true,
    maxQueueSize := 1000, queueDepth := 0, droppedJobs := 0, totalJobs := 0 }

/-- An `AsyncDbWriter` holding three pending jobs. -/
def smallWriter : WriterState Nat :=
  { queue := [1, 2, 3], running := false, intervalId := true,
    maxQueueSize := 1000, queueDepth := 0, droppedJobs := 0, totalJobs := 0 }


/-- An unlock state whose MK cache is full (100 entries). -/
def fullCacheState : UnlockState :=
  { pinScenarioBase with mkCache := witnessCache }

/-- An unlock state with a single cached MK entry for u1, inserted with
expiry 500. -/
def smallCacheState : UnlockState :=
  { pinScenarioBase with
      mkCache := [("u1", ⟨Except.ok (SymBytes.rand 0), 500⟩)] }

theorem mapLookup_cons {β : Type} (e : String × β) (rest : List (String × β))
    (k : String) :
    mapLookup (e :: rest) k = if e.1 = k then some e.2 else mapLookup rest k := by
  cases he : (e.1 == k) with
  | false =>
      have hne : e.1 ≠ k := by simpa using he
      simp [mapLookup, List.find?_cons, he, hne]
  | true =>
      have heq : e.1 = k := by simpa using he
      simp [mapLookup, List.find?_cons, he, heq]

theorem mapLookup_cons_none {β : Type} {e : String × β} {rest : List (String × β)}
    {k : String} (h : mapLookup (e :: rest) k = none) :
    e.1 ≠ k ∧ mapLookup rest k = none := by
  rw [mapLookup_cons] at h
  by_cases he : e.1 = k
  · simp [he] at h
  · exact ⟨he, by simpa [he] using h⟩

theorem mapLookup_eq_none_of_not_mem {β : Type} (m : List (String × β)) (k : String)
    (h : k ∉ m.map Prod.fst) : mapLookup m k = none := by
  induction m with
  | nil => rfl
  | cons e rest ih =>
      rw [mapLookup_cons]
      simp only [List.map_cons, List.mem_cons] at h
      push_neg at h
      simp [Ne.symm h.1, ih h.2]

theorem mapLookup_set_self {β : Type} (m : List (String × β)) (k : String) (v : β) :
    mapLookup (mapSet m k v) k = some v := by
  induction m with
  | nil => simp [mapSet, mapLookup_cons]
  | cons e rest ih =>
      by_cases h : e.1 = k
      · simp [mapSet, h, mapLookup_cons]
      · simp [mapSet, h, mapLookup_cons, ih]

theorem mapSet_of_lookup_none {β : Type} (m : List (String × β)) (k : String) (v : β)
    (h : mapLookup m k = none) : mapSet m k v = m ++ [(k, v)] := by
  induction m with
  | nil => rfl
  | cons e rest ih =>
      obtain ⟨hne, hrest⟩ := mapLookup_cons_none h
      simp [mapSet, hne, ih hrest]

theorem mapSet_length_le {β : Type} (m : List (String × β)) (k : String) (v : β) :
    (mapSet m k v).length ≤ m.length + 1 := by
  induction m with
  | nil => simp [mapSet]
  | cons e rest ih =>
      by_cases h : e.1 = k
      · simp [mapSet, h]
      · simpa [mapSet, h] using Nat.succ_le_succ ih

theorem mapDelete_cons_head {β : Type} (e : String × β) (rest : List (String × β)) :
    mapDelete (e :: rest) e.1 = rest := by
  simp [mapDelete]

theorem mapLookup_delete_self_of_nodup {β : Type} (m : List (String × β)) (k : String)
    (h : (m.map Prod.fst).Nodup) : mapLookup (mapDelete m k) k = none := by
  induction m with
  | nil => rfl
  | cons e rest ih =>
      simp only [List.map_cons, List.nodup_cons] at h
      by_cases he : e.1 = k
      · have hk : k ∉ rest.map Prod.fst := he ▸ h.1
        simp [mapDelete, he, mapLookup_eq_none_of_not_mem rest k hk]
      · simp [mapDelete, he, mapLookup_cons, ih h.2]

theorem unlockWithPin_keyStore_unchanged (s : UnlockState) (now : Int)
    (u pin : String) : (unlockWithPin s now u pin).2.keyStore = s.keyStore := by
  unfold unlockWithPin
  dsimp only
  repeat' split
  all_goals simp [setMasterKeyInCache]

theorem unlockWithPin_no_record_pinFailures (s : UnlockState) (now : Int)
    (u pin : String) (hrec : findById s.keyStore ("mk_pin_" ++ u) = none) :
    (unlockWithPin s now u pin).2.pinFailures = s.pinFailures := by
  unfold unlockWithPin
  dsimp only
  rw [hrec]
  split <;> rfl

theorem unlockWithPin_no_record_not_locked (s : UnlockState) (now : Int)
    (u pin : String) (hrec : findById s.keyStore ("mk_pin_" ++ u) = none)
    (hfail : mapLookup s.pinFailures u = none) :
    unlockWithPin s now u pin = (.jsError .typeError, { s with rng := s.rng + 1 }) := by
  unfold unlockWithPin
  dsimp only
  rw [hrec, hfail]
  rfl

/-- C1: against the contract "on unwrap success cache the MK, clear the
failure record and return true; on DecryptFailed increment the failure
record, set last_attempt, and return false", the code evaluated at a
provisioned user (PIN 1234) submitting the wrong PIN 0000 returns
`true`, leaves the failure map empty instead of incrementing it, and
caches the rejected promise of the un-awaited `unwrapKey` call as the
master key — even though the unwrap genuinely fails for that KEK. -/
theorem unlockWithPin_wrong_pin_divergence :
    (setPin pinScenarioBase ("u1") ("1234")).isSome = true
    ∧ findById pinScenarioS1.keyStore ("mk_pin_u1")
        = some ⟨"mk_pin_u1", "master_key_pin",
            SymBytes.sealedBy (.rand 0) (.derivedPin ("1234") (.rand 3)) (.rand 4),
            SymBytes.rand 4, some (.pinMeta (.rand 3))⟩
    ∧ aeadDecrypt
        (SymBytes.sealedBy (.rand 0) (.derivedPin ("1234") (.rand 3)) (.rand 4))
        (SymBytes.rand 4) (deriveKeyFromPin ("0000") (.rand 3))
        = .error .decryptFailed
    ∧ (unlockWithPin pinScenarioS1 1000 ("u1") ("0000")).1 = .ok true
    ∧ mapLookup (unlockWithPin pinScenarioS1 1000 ("u1") ("0000")).2.pinFailures ("u1")
        = none
    ∧ mapLookup (unlockWithPin pinScenarioS1 1000 ("u1") ("0000")).2.mkCache ("u1")
        = some ⟨Except.error CErr.decryptFailed, 1801000⟩ := by
  decide

/-- C2: scenario S1 evaluated on the code.  Before any unlock
`getDecryptedDek` is `null` and `unlockWithPin` with the correct PIN
returns `true`, as claimed; but the subsequent `getDecryptedDek` does
not return the 32-byte DEK (the draw `rand 1`): the MK cache holds the
un-awaited promise of `unwrapKey`, passing that promise to `unwrapKey`
as the key makes libsodium reject, and the un-awaited result — a
rejected promise, not bytes — is returned to the caller. -/
theorem getDecryptedDek_returns_promise_not_dek :
    (getDecryptedDek pinScenarioS1 500 ("u1")).1 = DekResult.nullRes
    ∧ (unlockWithPin pinScenarioS1 1000 ("u1") ("1234")).1 = UnlockResult.ok true
    ∧ mapLookup pinScenarioS2.mkCache ("u1")
        = some ⟨Except.ok (SymBytes.rand 0), 1801000⟩
    ∧ (findById pinScenarioS2.keyStore ("dek_u1")).isSome = true
    ∧ (getDecryptedDek pinScenarioS2 2000 ("u1")).1
        = DekResult.promiseRes (Except.error CErr.typeError)
    ∧ (getDecryptedDek pinScenarioS2 2000 ("u1")).1
        ≠ DekResult.promiseRes (Except.ok (SymBytes.rand 1)) := by
  decide

/-- C4: for a user id with no `mk_pin_<user_id>` record the code does
not return the claimed opaque `false`: the dummy derivation passes the
un-awaited `generateKey(16)` promise to Argon2id as the salt, the
derivation rejects, and the awaited rejection propagates out of
`unlockWithPin` as an uncaught error. -/
theorem unlockWithPin_unknown_user_throws :
    findById pinScenarioS1.keyStore ("mk_pin_nobody") = none
    ∧ unlockWithPin pinScenarioS1 1000 ("nobody") ("1234")
        = (UnlockResult.jsError CErr.typeError,
            { pinScenarioS1 with rng := pinScenarioS1.rng + 1 })
    ∧ (unlockWithPin pinScenarioS1 1000 ("nobody") ("1234")).1
        ≠ UnlockResult.ok false := by
  decide

/-- C10: with the kill switch enabled, each of the three unlock routes —
registered as `withKillSwitch(withUnlockRateLimit(inner))` — returns
`ServiceUnavailable` with the gate state exactly unchanged, for every
inner handler: the rate limiter store is not touched and the inner
handler (hence the Unlock Service) is not invoked. -/
theorem killSwitch_shields_unlock_rate_limiter :
    ∀ (inner : UnlockRoute → RouteHandler) (r : UnlockRoute) (req : HttpRequest)
      (now : Int) (s : GateState),
      s.killSwitch = true →
      unlockRouteTable inner r req now s = (.error .serviceUnavailable, s) := by
  intro inner r req now s h
  simp [unlockRouteTable, withKillSwitch, h]

/-- C10 witness: the kill-switch shield evaluated at the pin route with
a concrete state. -/
theorem killSwitch_shields_unlock_rate_limiter_witness :
    unlockRouteTable (fun _ => okRouteHandler) UnlockRoute.pin ⟨none, none⟩ 0
        ⟨true, unlockRateLimiter0⟩
      = (.error .serviceUnavailable, ⟨true, unlockRateLimiter0⟩) :=
  killSwitch_shields_unlock_rate_limiter (fun _ => okRouteHandler) UnlockRoute.pin
    ⟨none, none⟩ 0 ⟨true, unlockRateLimiter0⟩ rfl

/-- C7 counterexample: a session whose `lastUVAt` is the number 0 at
time 0 is set and fresh (0 ≤ 5 min), yet the gate rejects it, because
`!session.lastUVAt` is a JavaScript truthiness test and 0 is falsy.
This refutes "rejects iff lastUVAt is unset or older than 5 minutes"
as stated. -/
theorem requireFreshWebAuthn_claim_counterexample :
    ¬(requireFreshWebAuthn okSessionHandler 0 ⟨some 0⟩ = Except.error HttpErr.forbidden
        ↔ ((some (0 : Int) = none) ∨ freshWebAuthnTTL < (0 : Int) - 0)) := by
  decide

/-- C7 amended: `require_fresh_webauthn` rejects with Forbidden when
`lastUVAt` is unset, when it equals 0 (JavaScript falsiness), or when
`now − lastUVAt` exceeds 5 minutes; in every other case it admits the
request and invokes the wrapped handler. -/
theorem requireFreshWebAuthn_gate :
    ∀ (handler : Int → Session → Except HttpErr Unit) (now : Int) (session : Session),
      ((session.lastUVAt = none ∨ session.lastUVAt = some 0
          ∨ (∃ t, session.lastUVAt = some t ∧ freshWebAuthnTTL < now - t)) →
        requireFreshWebAuthn handler now session = .error .forbidden)
      ∧ (session.lastUVAt ≠ none →
          (∀ t, session.lastUVAt = some t → t ≠ 0 ∧ now - t ≤ freshWebAuthnTTL) →
          requireFreshWebAuthn handler now session = handler now session) := by
  intro handler now session
  constructor
  · intro h
    rcases hl : session.lastUVAt with _ | t
    · simp [requireFreshWebAuthn, hl]
    · rcases h with h | h | ⟨t2, h2, h3⟩
      · rw [hl] at h; cases h
      · rw [hl] at h
        injection h with h0
        simp [requireFreshWebAuthn, hl, h0]
      · rw [hl] at h2
        injection h2 with h0
        subst h0
        simp [requireFreshWebAuthn, hl, h3]
  · intro hne hall
    rcases hl : session.lastUVAt with _ | t
    · exact absurd hl hne
    · obtain ⟨ht0, hle⟩ := hall t hl
      simp [requireFreshWebAuthn, hl, ht0, not_lt.mpr hle]

/-- C7 witness: the gate rejects an unset `lastUVAt` and admits a set,
fresh, non-zero one. -/
theorem requireFreshWebAuthn_gate_witness :
    requireFreshWebAuthn okSessionHandler 0 ⟨none⟩ = Except.error HttpErr.forbidden
    ∧ requireFreshWebAuthn okSessionHandler 1000 ⟨some 1000⟩
        = okSessionHandler 1000 ⟨some 1000⟩ := by
  constructor
  · exact (requireFreshWebAuthn_gate okSessionHandler 0 ⟨none⟩).1 (Or.inl rfl)
  · refine (requireFreshWebAuthn_gate okSessionHandler 1000 ⟨some 1000⟩).2 (by decide) ?_
    intro t ht
    injection ht with h
    subst h
    exact ⟨by decide, by decide⟩

/-- C3: with a PIN-failure record of at least 5 failures, a call within
15 minutes of the last attempt throws `AccountLocked` whatever the
submitted PIN and leaves the state untouched; once 15 minutes have
elapsed, a call with the correct PIN (the record's blob unwraps under
the KEK derived from that PIN) returns `true` and clears the failure
record. -/
theorem unlockWithPin_lockout :
    ∀ (s : UnlockState) (now : Int) (u pin : String) (fi : FailureInfo),
      mapLookup s.pinFailures u = some fi →
      maxPinAttempts ≤ fi.count →
      ((now - fi.lastAttempt < pinLockoutDuration →
          unlockWithPin s now u pin = (.accountLocked, s))
        ∧ (pinLockoutDuration ≤ now - fi.lastAttempt →
            (s.pinFailures.map Prod.fst).Nodup →
            ∀ (r : KeyRecord) (mk salt : SymBytes),
              findById s.keyStore ("mk_pin_" ++ u) = some r →
              r.meta = some (.pinMeta salt) →
              r.blob = SymBytes.sealedBy mk (deriveKeyFromPin pin salt) r.nonce →
              (unlockWithPin s now u pin).1 = .ok true
              ∧ mapLookup (unlockWithPin s now u pin).2.pinFailures u = none)) := by
  intro s now u pin fi hfi hcount
  constructor
  · intro hfresh
    simp [unlockWithPin, hfi, hcount, hfresh]
  · intro hstale hnodup r mk salt hr hmeta hblob
    have hcond : ¬(now - fi.lastAttempt < pinLockoutDuration) := not_lt.mpr hstale
    constructor
    · simp [unlockWithPin, hfi, hcond, hr, hmeta]
    · simp [unlockWithPin, hfi, hcond, hr, hmeta, setMasterKeyInCache,
        mapLookup_delete_self_of_nodup _ _ hnodup]

/-- C3 witness: the lockout contract evaluated at a provisioned user
with 5 failures at time 0: locked at time 1000, unlocked with the
correct PIN at time 900000 with the counter cleared. -/
theorem unlockWithPin_lockout_witness :
    unlockWithPin lockoutWitnessState 1000 ("u1") ("1234")
      = (.accountLocked, lockoutWitnessState)
    ∧ (unlockWithPin lockoutWitnessState 900000 ("u1") ("1234")).1 = .ok true
    ∧ mapLookup (unlockWithPin lockoutWitnessState 900000 ("u1") ("1234")).2.pinFailures
        ("u1") = none := by
  have h1 := (unlockWithPin_lockout lockoutWitnessState 1000 ("u1") ("1234") ⟨5, 0⟩
    (by decide) (by decide)).1 (by decide)
  have h2 := (unlockWithPin_lockout lockoutWitnessState 900000 ("u1") ("1234") ⟨5, 0⟩
    (by decide) (by decide)).2 (by decide) (by decide)
    ⟨"mk_pin_u1", "master_key_pin",
      SymBytes.sealedBy (.rand 10) (.derivedPin ("1234") (.rand 11)) (.rand 12),
      SymBytes.rand 12, some (.pinMeta (.rand 11))⟩
    (.rand 10) (.rand 11) (by decide) (by decide) (by decide)
  exact ⟨h1, h2.1, h2.2⟩

theorem setMasterKeyInCache_capacity (s : UnlockState) (now : Int) (u : String)
    (k : Except CErr SymBytes) (h : s.mkCache.length ≤ 100) :
    (setMasterKeyInCache s now u k).mkCache.length ≤ 100 := by
  unfold setMasterKeyInCache
  dsimp only
  by_cases hfull : 100 ≤ s.mkCache.length
  · rw [if_pos hfull]
    rcases hc : s.mkCache with _ | ⟨e, rest⟩
    · simp [hc, mapSet]
    · simp only [hc]
      rw [mapDelete_cons_head]
      have h2 := mapSet_length_le rest u ⟨k, now + mkCacheTTL⟩
      have h3 : (e :: rest).length ≤ 100 := hc ▸ h
      simp only [List.length_cons] at h3
      omega
  · rw [if_neg hfull]
    have h2 := mapSet_length_le s.mkCache u ⟨k, now + mkCacheTTL⟩
    omega

theorem setMasterKeyInCache_evicts_oldest (s : UnlockState) (now : Int) (u : String)
    (k : Except CErr SymBytes) (e : String × CacheEntry)
    (rest : List (String × CacheEntry)) (hc : s.mkCache = e :: rest)
    (h100 : s.mkCache.length = 100) (hu : mapLookup s.mkCache u = none) :
    (setMasterKeyInCache s now u k).mkCache
      = rest ++ [(u, ⟨k, now + mkCacheTTL⟩)] := by
  have hfull : 100 ≤ s.mkCache.length := le_of_eq h100.symm
  have hrest : mapLookup rest u = none := (mapLookup_cons_none (hc ▸ hu)).2
  unfold setMasterKeyInCache
  dsimp only
  rw [if_pos hfull]
  simp only [hc]
  rw [mapDelete_cons_head, mapSet_of_lookup_none rest u _ hrest]

theorem getMasterKeyFromCache_fresh_hit (s : UnlockState) (now : Int) (u : String)
    (e : CacheEntry) (he : mapLookup s.mkCache u = some e) (hnow : now < e.expires) :
    getMasterKeyFromCache s now u
      = (some e.key, { s with mkCache := mapSet s.mkCache u ⟨e.key, now + mkCacheTTL⟩ }) := by
  simp [getMasterKeyFromCache, he, hnow]

theorem getMasterKeyFromCache_expired (s : UnlockState) (now : Int) (u : String)
    (e : CacheEntry) (he : mapLookup s.mkCache u = some e) (hnow : e.expires ≤ now) :
    getMasterKeyFromCache s now u
      = (none, { s with mkCache := mapDelete s.mkCache u }) := by
  simp [getMasterKeyFromCache, he, not_lt.mpr hnow]

/-- C5: the MK cache policy of `UnlockService`.  Inserts keep the cache
at no more than 100 entries; an insert of a new user into a full cache
evicts exactly the oldest-inserted entry and appends the new one; a
read of an unexpired entry returns its key and refreshes its expiry to
now + 30 minutes in place; a read of an expired entry deletes it and
misses; and `getDecryptedDek` for a user whose cache entry has expired
(more than 30 idle minutes have passed) returns `null` until the user
re-unlocks. -/
theorem mkCache_policy :
    (∀ (s : UnlockState) (now : Int) (u : String) (k : Except CErr SymBytes),
        s.mkCache.length ≤ 100 →
        (setMasterKeyInCache s now u k).mkCache.length ≤ 100)
    ∧ (∀ (s : UnlockState) (now : Int) (u : String) (k : Except CErr SymBytes)
          (e : String × CacheEntry) (rest : List (String × CacheEntry)),
        s.mkCache = e :: rest →
        s.mkCache.length = 100 →
        mapLookup s.mkCache u = none →
        (setMasterKeyInCache s now u k).mkCache
          = rest ++ [(u, ⟨k, now + mkCacheTTL⟩)])
    ∧ (∀ (s : UnlockState) (now : Int) (u : String) (e : CacheEntry),
        mapLookup s.mkCache u = some e →
        now < e.expires →
        getMasterKeyFromCache s now u
          = (some e.key,
              { s with mkCache := mapSet s.mkCache u ⟨e.key, now + mkCacheTTL⟩ }))
    ∧ (∀ (s : UnlockState) (now : Int) (u : String) (e : CacheEntry),
        mapLookup s.mkCache u = some e →
        e.expires ≤ now →
        getMasterKeyFromCache s now u
          = (none, { s with mkCache := mapDelete s.mkCache u }))
    ∧ (∀ (s : UnlockState) (now : Int) (u : String) (e : CacheEntry),
        mapLookup s.mkCache u = some e →
        e.expires ≤ now →
        (getDecryptedDek s now u).1 = DekResult.nullRes) := by
  refine ⟨setMasterKeyInCache_capacity, setMasterKeyInCache_evicts_oldest,
    getMasterKeyFromCache_fresh_hit, getMasterKeyFromCache_expired, ?_⟩
  intro s now u e he hnow
  simp [getDecryptedDek, getMasterKeyFromCache_expired s now u e he hnow]

/-- C5 witness: the cache policy evaluated at concrete caches — an
insert below capacity, an eviction from a full 100-entry cache, a fresh
read refresh, an expired-read removal, and an expired `getDecryptedDek`
miss. -/
theorem mkCache_policy_witness :
    (setMasterKeyInCache smallCacheState 0 ("u2") (Except.ok (SymBytes.rand 1))).mkCache.length ≤ 100
    ∧ (setMasterKeyInCache fullCacheState 0 ("u9") (Except.ok (SymBytes.rand 7))).mkCache
        = witnessCacheTail ++ [("u9", ⟨Except.ok (SymBytes.rand 7), (0 : Int) + mkCacheTTL⟩)]
    ∧ getMasterKeyFromCache smallCacheState 100 ("u1")
        = (some (Except.ok (SymBytes.rand 0)),
            { smallCacheState with
                mkCache := mapSet smallCacheState.mkCache ("u1")
                  ⟨Except.ok (SymBytes.rand 0), (100 : Int) + mkCacheTTL⟩ })
    ∧ getMasterKeyFromCache smallCacheState 500 ("u1")
        = (none, { smallCacheState with
            mkCache := mapDelete smallCacheState.mkCache ("u1") })
    ∧ (getDecryptedDek smallCacheState 600 ("u1")).1 = DekResult.nullRes := by
  refine ⟨?_, ?_, ?_, ?_, ?_⟩
  · exact mkCache_policy.1 smallCacheState 0 ("u2") (Except.ok (SymBytes.rand 1)) (by decide)
  · exact mkCache_policy.2.1 fullCacheState 0 ("u9") (Except.ok (SymBytes.rand 7))
      ("k0", witnessEntry) witnessCacheTail (by decide) (by decide) (by decide)
  · exact mkCache_policy.2.2.1 smallCacheState 100 ("u1")
      ⟨Except.ok (SymBytes.rand 0), 500⟩ (by decide) (by decide)
  · exact mkCache_policy.2.2.2.1 smallCacheState 500 ("u1")
      ⟨Except.ok (SymBytes.rand 0), 500⟩ (by decide) (by decide)
  · exact mkCache_policy.2.2.2.2 smallCacheState 600 ("u1")
      ⟨Except.ok (SymBytes.rand 0), 500⟩ (by decide) (by decide)

theorem runUnlockSequence_no_record (u : String) (calls : List (Int × String)) :
    ∀ s : UnlockState, findById s.keyStore ("mk_pin_" ++ u) = none →
      mapLookup s.pinFailures u = none →
      mapLookup (runUnlockSequence s u calls).1.pinFailures u = none
      ∧ UnlockResult.accountLocked ∉ (runUnlockSequence s u calls).2 := by
  induction calls with
  | nil =>
      intro s hrec hfail
      exact ⟨hfail, by simp [runUnlockSequence]⟩
  | cons c rest ih =>
      intro s hrec hfail
      have hstep := unlockWithPin_no_record_not_locked s c.1 u c.2 hrec hfail
      have htail := ih { s with rng := s.rng + 1 } hrec hfail
      simp only [runUnlockSequence, hstep]
      refine ⟨htail.1, ?_⟩
      simp [htail.2]

/-- C9: a user id with no `mk_pin_<user_id>` record: every single
`unlockWithPin` call for it leaves the whole PIN-failure map unchanged,
and starting with no failure entry, no sequence of that user's own
unlock calls ever produces an `AccountLocked` outcome or creates a
failure entry. -/
theorem unlockWithPin_unprovisioned_frame :
    ∀ (s : UnlockState) (u : String),
      findById s.keyStore ("mk_pin_" ++ u) = none →
      ((∀ (now : Int) (pin : String),
          (unlockWithPin s now u pin).2.pinFailures = s.pinFailures)
        ∧ (mapLookup s.pinFailures u = none →
            ∀ calls : List (Int × String),
              mapLookup (runUnlockSequence s u calls).1.pinFailures u = none
              ∧ UnlockResult.accountLocked ∉ (runUnlockSequence s u calls).2)) := by
  intro s u hrec
  refine ⟨fun now pin => unlockWithPin_no_record_pinFailures s now u pin hrec, ?_⟩
  intro hfail calls
  exact runUnlockSequence_no_record u calls s hrec hfail

/-- C9 witness: the frame property evaluated at the S1 state for the
unprovisioned user u2 over two unlock attempts. -/
theorem unlockWithPin_unprovisioned_frame_witness :
    (unlockWithPin pinScenarioS1 0 ("u2") ("1111")).2.pinFailures
        = pinScenarioS1.pinFailures
    ∧ mapLookup (runUnlockSequence pinScenarioS1 ("u2")
        [(0, "1111"), (50, "2222")]).1.pinFailures ("u2") = none
    ∧ UnlockResult.accountLocked
        ∉ (runUnlockSequence pinScenarioS1 ("u2") [(0, "1111"), (50, "2222")]).2 := by
  have h := unlockWithPin_unprovisioned_frame pinScenarioS1 ("u2") (by decide)
  have h2 := h.2 (by decide) [(0, "1111"), (50, "2222")]
  exact ⟨h.1 0 ("1111"), h2.1, h2.2⟩

/-- C8: the bounded write queue.  With the configured maximum of 1000:
`enqueue` returns false, leaves the queue unchanged and increments the
dropped-jobs counter exactly when the queue already holds 1000 pending
jobs (and, under the cap invariant, only then — the cap itself is
preserved); otherwise it appends the job and returns true.  `dispose`
clears the interval timer and processes every remaining queued job, in
order, before returning. -/
theorem asyncDbWriter_queue_policy :
    ∀ {J : Type} (s : WriterState J) (job : J),
      s.maxQueueSize = 1000 →
      (((enqueue s job).1 = false) ↔ 1000 ≤ s.queue.length)
      ∧ (1000 ≤ s.queue.length →
          enqueue s job
            = (false, { s with totalJobs := s.totalJobs + 1,
                               queueDepth := s.queue.length,
                               droppedJobs := s.droppedJobs + 1 }))
      ∧ (s.queue.length < 1000 →
          enqueue s job
            = (true, { s with totalJobs := s.totalJobs + 1,
                              queueDepth := s.queue.length,
                              queue := s.queue ++ [job] }))
      ∧ (s.queue.length ≤ 1000 →
          (((enqueue s job).1 = false) ↔ s.queue.length = 1000)
          ∧ (enqueue s job).2.queue.length ≤ 1000)
      ∧ (s.running = false →
          dispose s = ({ s with intervalId := false, queue := [] }, s.queue)) := by
  intro J s job hmax
  by_cases hfull : 1000 ≤ s.queue.length
  · have he : enqueue s job
        = (false, { s with totalJobs := s.totalJobs + 1,
                           queueDepth := s.queue.length,
                           droppedJobs := s.droppedJobs + 1 }) := by
      simp [enqueue, hmax, hfull]
    refine ⟨by simp [he, hfull], fun _ => he, fun hlt => absurd hfull (by omega), ?_, ?_⟩
    · intro hle
      exact ⟨by simp [he]; omega, by simp [he]; omega⟩
    · intro hrun
      simp [dispose, processQueue, hrun]
  · have hlt : s.queue.length < 1000 := by omega
    have he : enqueue s job
        = (true, { s with totalJobs := s.totalJobs + 1,
                          queueDepth := s.queue.length,
                          queue := s.queue ++ [job] }) := by
      simp [enqueue, hmax]
      omega
    refine ⟨by simp [he]; omega, fun h => absurd h hfull, fun _ => he, ?_, ?_⟩
    · intro hle
      exact ⟨by simp [he]; omega, by simp [he]; omega⟩
    · intro hrun
      simp [dispose, processQueue, hrun]

/-- C8 witness: the queue policy evaluated at a writer holding exactly
1000 jobs (the enqueue is dropped and counted) and at a writer holding
three jobs (the enqueue is appended; dispose stops the timer and flushes
all three jobs in order). -/
theorem asyncDbWriter_queue_policy_witness :
    (enqueue fullWriter 7).1 = false
    ∧ enqueue fullWriter 7
        = (false, { fullWriter with totalJobs := fullWriter.totalJobs + 1,
                                    queueDepth := fullWriter.queue.length,
                                    droppedJobs := fullWriter.droppedJobs + 1 })
    ∧ enqueue smallWriter 7
        = (true, { smallWriter with totalJobs := smallWriter.totalJobs + 1,
                                    queueDepth := smallWriter.queue.length,
                                    queue := smallWriter.queue ++ [7] })
    ∧ dispose smallWriter
        = ({ smallWriter with intervalId := false, queue := [] }, smallWriter.queue) := by
  have hfull : 1000 ≤ fullWriter.queue.length := by
    show 1000 ≤ (List.replicate 1000 (0 : Nat)).length
    rw [List.length_replicate]
  have h1 := asyncDbWriter_queue_policy fullWriter 7 rfl
  have h2 := asyncDbWriter_queue_policy smallWriter 7 rfl
  exact ⟨(h1.1).mpr hfull, h1.2.1 hfull, h2.2.2.1 (by decide), h2.2.2.2.2 rfl⟩

theorem runLimiter_steady (key : String) (t0 : Int) :
    ∀ (ts : List Int) (c : Nat) (store : List (String × RateLimitInfo)),
      mapLookup store key = some ⟨c, t0⟩ →
      (∀ t ∈ ts, t - t0 ≤ 60000) →
      runLimiter ⟨store, 5, 60000⟩ key ts
        = List.replicate (min ts.length (5 - c)) false
            ++ List.replicate (ts.length - (5 - c)) true := by
  intro ts
  induction ts with
  | nil =>
      intro c store hst hts
      simp [runLimiter]
  | cons t rest ih =>
      intro c store hst hts
      have hwin : t - t0 ≤ 60000 := hts t (by simp)
      have hreset : ¬(t0 < t - 60000) := by omega
      have hlimit : RateLimiter.limit ⟨store, 5, 60000⟩ t key
          = (decide (5 < c + 1), ⟨mapSet store key ⟨c + 1, t0⟩, 5, 60000⟩) := by
        simp [RateLimiter.limit, hst, hreset]
      have htail := ih (c + 1) (mapSet store key ⟨c + 1, t0⟩)
        (mapLookup_set_self store key ⟨c + 1, t0⟩)
        (fun t2 ht2 => hts t2 (by simp [ht2]))
      simp only [runLimiter, hlimit]
      rw [htail]
      by_cases hc : 5 ≤ c
      · have hd : 5 < c + 1 := by omega
        have h1 : 5 - c = 0 := by omega
        have h2 : 5 - (c + 1) = 0 := by omega
        simp [hd, h1, h2, List.replicate_succ]
      · have hd : ¬(5 < c + 1) := by omega
        have h2 : 5 - (c + 1) = 4 - c := by omega
        have hmin : min (rest.length + 1) (5 - c) = min rest.length (4 - c) + 1 := by
          omega
        have hsub : rest.length + 1 - (5 - c) = rest.length - (4 - c) := by omega
        simp [hd, h2, hmin, hsub, List.replicate_succ]

/-- C6 counterexample: the limiter is not a sliding window.  For the
schedule below from one IP, all 10 requests are admitted, 9 of them
inside the single 60-second interval [50000, 110000] — more than the
claimed maximum of 5 per sliding window.  (The code resets its fixed
window at the first request more than 60 s after the window start.) -/
theorem rateLimiter_not_sliding_window :
    ((admittedTimes unlockRateLimiter0 ("10.0.0.1") slidingSchedule).filter
        (fun t => decide (50000 ≤ t ∧ t ≤ 110000))).length = 9
    ∧ (110000 : Int) - 50000 = 60000
    ∧ runLimiter unlockRateLimiter0 ("10.0.0.1") slidingSchedule
        = List.replicate 10 false
    ∧ ¬(((admittedTimes unlockRateLimiter0 ("10.0.0.1") slidingSchedule).filter
          (fun t => decide (50000 ≤ t ∧ t ≤ 110000))).length ≤ 5) := by
  decide

/-- C6 amended: the unlock limiter keys requests by the first non-empty
of x-forwarded-for and x-real-ip, else "unknown", and counts them in a
fixed 60-second window anchored at the window's first request: of any
run of requests all within 60 s of the first one (from a fresh
limiter), exactly the first 5 are admitted and every later one —
in particular the 6th — is rejected; and when the limiter reports
over-limit the middleware throws TooManyRequests with only the limiter
store updated, never invoking the wrapped handler (the Unlock
Service). -/
theorem rateLimiter_fixed_window :
    (∀ (ip : String) (xr : Option String), ip ≠ "" →
        rateLimitKey ⟨some ip, xr⟩ = ip)
    ∧ (∀ ip : String, ip ≠ "" → rateLimitKey ⟨none, some ip⟩ = ip)
    ∧ rateLimitKey ⟨none, none⟩ = "unknown"
    ∧ (∀ (key : String) (t0 : Int) (rest : List Int),
        (∀ t ∈ rest, t - t0 ≤ 60000) →
        runLimiter unlockRateLimiter0 key (t0 :: rest)
          = List.replicate (min (rest.length + 1) 5) false
              ++ List.replicate (rest.length + 1 - 5) true)
    ∧ (∀ (inner : UnlockRoute → RouteHandler) (r : UnlockRoute) (req : HttpRequest)
          (now : Int) (s : GateState),
        s.killSwitch = false →
        (s.unlockLimiter.limit now (rateLimitKey req)).1 = true →
        unlockRouteTable inner r req now s
          = (.error .tooManyRequests,
              { s with unlockLimiter := (s.unlockLimiter.limit now (rateLimitKey req)).2 })) := by
  refine ⟨?_, ?_, rfl, ?_, ?_⟩
  · intro ip xr hip
    simp [rateLimitKey, truthyHeader, hip]
  · intro ip hip
    simp [rateLimitKey, truthyHeader, hip]
  · intro key t0 rest hrest
    have hreset : ¬(t0 < t0 - 60000) := by omega
    have hfirst : RateLimiter.limit unlockRateLimiter0 t0 key
        = (false, ⟨[(key, ⟨1, t0⟩)], 5, 60000⟩) := by
      simp [RateLimiter.limit, unlockRateLimiter0, mapLookup, hreset, mapSet]
    have htail := runLimiter_steady key t0 rest 1
      ([(key, ⟨1, t0⟩)]) (by simp [mapLookup_cons]) hrest
    simp only [runLimiter, hfirst]
    rw [htail]
    have hmin : min (rest.length + 1) 5 = min rest.length 4 + 1 := by omega
    have hsub : rest.length + 1 - 5 = rest.length - 4 := by omega
    simp [hmin, hsub, List.replicate_succ]
  · intro inner r req now s hks hover
    simp [unlockRouteTable, withKillSwitch, hks, withUnlockRateLimit, hover]

/-- C6 witness: the fixed-window contract evaluated concretely — key
selection from x-forwarded-for, six requests inside one window with the
6th rejected, and the middleware rejecting an over-limit request
without consulting the inner handler. -/
theorem rateLimiter_fixed_window_witness :
    rateLimitKey ⟨some ("1.2.3.4"), none⟩ = "1.2.3.4"
    ∧ rateLimitKey ⟨none, some ("5.6.7.8")⟩ = "5.6.7.8"
    ∧ runLimiter unlockRateLimiter0 ("1.2.3.4") [0, 1, 2, 3, 4, 5]
        = [false, false, false, false, false, true]
    ∧ unlockRouteTable (fun _ => okRouteHandler) UnlockRoute.pin
          ⟨some ("1.2.3.4"), none⟩ 10 ⟨false, ⟨[("1.2.3.4", ⟨5, 0⟩)], 5, 60000⟩⟩
        = (.error .tooManyRequests,
            ⟨false, ⟨[("1.2.3.4", ⟨6, 0⟩)], 5, 60000⟩⟩) := by
  refine ⟨?_, ?_, ?_, ?_⟩
  · exact rateLimiter_fixed_window.1 ("1.2.3.4") none (by decide)
  · exact rateLimiter_fixed_window.2.1 ("5.6.7.8") (by decide)
  · have h := rateLimiter_fixed_window.2.2.2.1 ("1.2.3.4") 0 [1, 2, 3, 4, 5] (by decide)
    rw [h]
    decide
  · have h := rateLimiter_fixed_window.2.2.2.2 (fun _ => okRouteHandler)
      UnlockRoute.pin ⟨some ("1.2.3.4"), none⟩ 10
      ⟨false, ⟨[("1.2.3.4", ⟨5, 0⟩)], 5, 60000⟩⟩ rfl (by decide)
    rw [h]
    decide
